import Mathlib

/-!
Shallow embedding of `src/sync.py` (mwvaughn/s3copy).

Strings are modelled as `List Char` (`Str`).  The three source functions
`parse_s3_url`, `download_file` and `sync_s3_bucket` are translated
directly; the boto3/S3 environment (listing result, per-object transfer
result) is an explicit `SyncEnv` record, and filesystem/console side
effects are recorded as an explicit `Effect` trace.
-/

namespace S3Copy

abbrev Str := List Char

/-- The characters of the literal scheme `s3://` that the regex
`s3://([^/]+)/?(.+)?` in `parse_s3_url` requires at the start. -/
def s3SchemeChars : Str := ['s', '3', ':', '/', '/']

/-- The `ValueError` message raised by `parse_s3_url` on a non-matching URL. -/
def invalidMsg : Str :=
  ("Invalid S3 URL format. Expected: s3://bucket-name/optional-prefix").toList

/-- Python `str.strip(c)`: remove all leading and trailing occurrences of `c`. -/
def stripBoth (c : Char) (l : Str) : Str :=
  ((l.dropWhile (· == c)).reverse.dropWhile (· == c)).reverse

/-- The `/?` of the regex: consume one leading slash when present. -/
def afterSlash : Str → Str
  | '/' :: t => t
  | r => r

/-- `parse_s3_url` from `src/sync.py`: `re.match(r's3://([^/]+)/?(.+)?', s3_url)`
followed by `prefix.strip('/')` and appending `'/'` when non-empty.
Group 1 (`[^/]+`, greedy) is the maximal non-empty run of non-`/` characters
after `s3://`; `/?` consumes one following slash if present; group 2 (`.+`,
greedy, `.` excluding newline) is the rest of the string up to the first
newline, or `None` when that is empty.  A failed match raises `ValueError`,
modelled as `Except.error`. -/
def parse_s3_url (s3_url : Str) : Except Str (Str × Str) :=
  if s3_url.take 5 = s3SchemeChars then
    let rest := s3_url.drop 5
    let bucket := rest.takeWhile (fun c => c != '/')
    if bucket = [] then Except.error invalidMsg
    else
      let r1 := rest.dropWhile (fun c => c != '/')
      let r2 := afterSlash r1
      let g2 := r2.takeWhile (fun c => c != '\n')
      let p0 := stripBoth '/' g2
      let pfx := if p0 = [] then ([] : Str) else p0 ++ ['/']
      Except.ok (bucket, pfx)
  else Except.error invalidMsg

/-- Whether a string is non-empty and starts with a non-`/` character. -/
def headNotSlash : Str → Bool
  | c :: _ => c != '/'
  | [] => false

/-- Whether a locator string has a bucket segment, i.e. matches the regex
shape `s3://bucket[/optional-path]`: it starts with `s3://` and the next
character exists and is not `/`. -/
def hasBucketShape (s : Str) : Bool :=
  (s.take 5 == s3SchemeChars) && headNotSlash (s.drop 5)

/-! ### Path model (POSIX `pathlib` semantics) -/

/-- A path segment literally equal to `..`. -/
def dotdot : Str := ['.', '.']

/-- Segments kept by `pathlib` normalisation: empty parts and `.` parts
are dropped, everything else (including `..`) is kept. -/
def isSegKept (s : Str) : Bool := (s != []) && (s != ['.'])

/-- Split a path string into its kept segments. -/
def pathSegs (p : Str) : List Str := (p.splitOn '/').filter isSegKept

/-- Whether a path string is absolute (starts with `/`). -/
def isAbsStr : Str → Bool
  | '/' :: _ => true
  | _ => false

/-- A `pathlib.PurePosixPath`: an absolute flag plus normalised segments
(`..` segments are preserved, as `pathlib` does not resolve them). -/
structure PurePath where
  absolute : Bool
  segs : List Str
deriving DecidableEq, Repr

/-- Parse a path string into a `PurePath` (as `pathlib.Path(s)`). -/
def parsePath (s : Str) : PurePath := ⟨isAbsStr s, pathSegs s⟩

/-- `base / child` in `pathlib`: an absolute `child` replaces the base
entirely, otherwise the segments are concatenated. -/
def pathJoin (base : PurePath) (child : Str) : PurePath :=
  if isAbsStr child then ⟨true, pathSegs child⟩
  else ⟨base.absolute, base.segs ++ pathSegs child⟩

/-- Filesystem resolution of `..` segments: a `..` pops the previous
segment; at the root of an absolute path it is a no-op, while leading
`..` segments of a relative path are kept. -/
def normAux (abs : Bool) (acc : List Str) : List Str → List Str
  | [] => acc.reverse
  | s :: rest =>
    if s = dotdot then
      match acc with
      | [] => if abs then normAux abs [] rest else normAux abs [s] rest
      | t :: acc2 =>
        if t = dotdot then normAux abs (s :: t :: acc2) rest
        else normAux abs acc2 rest
    else normAux abs (s :: acc) rest

/-- Resolve all `..` segments of a path. -/
def normalizePath (p : PurePath) : PurePath :=
  ⟨p.absolute, normAux p.absolute [] p.segs⟩

/-- Whether, after resolving `..` segments, `dest` lies inside (or equals)
`root`. -/
def insideRoot (root dest : PurePath) : Bool :=
  ((normalizePath root).absolute == (normalizePath dest).absolute) &&
    (normalizePath root).segs.isPrefixOf (normalizePath dest).segs

/-! ### Path mapping step of `sync_s3_bucket` (lines 89-95) -/

/-- The local key computed in `sync_s3_bucket`: when `prefix` is non-empty
the code runs `local_key = s3_key[len(prefix):]` unconditionally, otherwise
`local_key = s3_key`. -/
def localKeyOf (pfx s3_key : Str) : Str :=
  if pfx = [] then s3_key else s3_key.drop pfx.length

/-- `local_path = str(local_dir / local_key)` from `sync_s3_bucket`. -/
def mapLocalPath (pfx s3_key : Str) (local_dir : PurePath) : PurePath :=
  pathJoin local_dir (localKeyOf pfx s3_key)

/-! ### Environment, client configuration and the sync pipeline -/

/-- One listed S3 object (an entry of a page's `Contents`). -/
structure S3Obj where
  key : Str
  size : Nat
deriving DecidableEq, Repr

/-- The boto3/S3/filesystem environment of one run: the result of the whole
paginated listing (pages of `Contents`; a page without `Contents` is an
empty list), and the combined result of `os.makedirs` plus
`s3_client.download_file` for a given bucket, key and local path. -/
structure SyncEnv where
  pages : Except Str (List (List S3Obj))
  transfer : Str → Str → PurePath → Except Str Unit

/-- The `botocore.config.Config` built in `sync_s3_bucket`. -/
structure Config where
  max_pool_connections : Nat
  max_attempts : Nat
  connect_timeout : Nat
  read_timeout : Nat
deriving DecidableEq, Repr

/-- The client configuration from `sync_s3_bucket`:
`max_pool_connections = max_workers + 10`, 3 retries, 60s timeouts. -/
def mkClientConfig (max_workers : Nat) : Config :=
  ⟨max_workers + 10, 3, 60, 60⟩

/-- `download_file` from `src/sync.py`: runs `os.makedirs` on the parent and
`s3_client.download_file`; any exception is caught, logged and turned into
`False`, success returns `True`.  The function is total: it never raises. -/
def download_file (env : SyncEnv) (bucket_name s3_key : Str)
    (local_path : PurePath) : Bool :=
  match env.transfer bucket_name s3_key local_path with
  | Except.ok _ => true
  | Except.error _ => false

/-- The worker-pool phase of `sync_s3_bucket`: every task is submitted to the
executor and every future's result is awaited before the pool is left, so the
run produces one recorded outcome per task, in submission order. -/
def run_pool (env : SyncEnv) (bucket_name : Str)
    (tasks : List (Str × PurePath)) : List Bool :=
  tasks.map (fun t => download_file env bucket_name t.1 t.2)

/-- Observable side effects of one run, in order: `local_dir.mkdir(parents=True,
exist_ok=True)`, the paginated listing, console prints, and each submitted
download. -/
inductive Effect where
  | mkdirTree : PurePath → Effect
  | listCall : Effect
  | printMsg : Str → Effect
  | downloadAttempt : Str → PurePath → Effect
deriving DecidableEq, Repr

/-- The console line `No objects found in {s3_url}`. -/
def noObjectsLine (s3_url : Str) : Str :=
  ("No objects found in ").toList ++ s3_url

/-- The console line `Found {n} objects to sync`. -/
def foundLine (n : Nat) : Str :=
  ("Found ").toList ++ (toString n).toList ++ (" objects to sync").toList

/-- The data a successful run returns: the number of listed objects, the
`(s3_key, local_path)` task list, and the per-task outcomes. -/
structure SyncSummary where
  foundCount : Nat
  tasks : List (Str × PurePath)
  outcomes : List Bool
deriving DecidableEq, Repr

/-- A whole run: its ordered effect trace and either a summary or the fatal
error (`ValueError` from parsing, or a listing failure). -/
structure SyncResult where
  effects : List Effect
  result : Except Str SyncSummary

/-- `sync_s3_bucket` from `src/sync.py`:
parse the URL (a failure aborts before any I/O); build the client config;
create the local root directory; run the paginated listing (a failure aborts
after the root directory was created); on an empty listing print the
"no objects" line and return; otherwise build one task per listed object
(stripping the prefix length from the key and joining under `local_dir`),
submit them all to the pool and await every outcome. -/
def sync_s3_bucket (env : SyncEnv) (s3_url local_dir : Str)
    (max_workers : Nat) : SyncResult :=
  match parse_s3_url s3_url with
  | Except.error e => ⟨[], Except.error e⟩
  | Except.ok (bucket_name, pfx) =>
    let _config := mkClientConfig max_workers
    let localRoot := parsePath local_dir
    match env.pages with
    | Except.error e =>
      ⟨[Effect.mkdirTree localRoot, Effect.listCall], Except.error e⟩
    | Except.ok pages =>
      let all_objects := pages.flatten
      if all_objects = [] then
        ⟨[Effect.mkdirTree localRoot, Effect.listCall,
          Effect.printMsg (noObjectsLine s3_url)],
         Except.ok ⟨0, [], []⟩⟩
      else
        let tasks := all_objects.map
          (fun obj => (obj.key, pathJoin localRoot (localKeyOf pfx obj.key)))
        let outcomes := run_pool env bucket_name tasks
        ⟨[Effect.mkdirTree localRoot, Effect.listCall,
          Effect.printMsg (foundLine all_objects.length)]
          ++ tasks.map (fun t => Effect.downloadAttempt t.1 t.2),
         Except.ok ⟨all_objects.length, tasks, outcomes⟩⟩

/-- Spec-side description of the normalised prefix: surrounding slashes
trimmed, then a single trailing slash appended when non-empty. -/
def specPrefixOf (p : Str) : Str :=
  let q := stripBoth '/' p
  if q = [] then [] else q ++ ['/']

/-! ### Concrete environments used to instantiate the theorems -/

/-- An environment in which only the object with key `bad` fails to
transfer. -/
def envOneBad : SyncEnv :=
  ⟨Except.ok [],
   fun _ k _ =>
     if k = ("bad").toList then Except.error ("boom").toList else Except.ok ()⟩

/-- Concrete tasks used to instantiate the single-failure theorem. -/
def taskA : Str × PurePath := (("a").toList, ⟨false, []⟩)

/-- The task whose transfer `envOneBad` makes fail. -/
def taskBad : Str × PurePath := (("bad").toList, ⟨false, []⟩)

/-- A second succeeding task. -/
def taskC : Str × PurePath := (("c").toList, ⟨false, []⟩)

/-- An environment whose listing returns two pages, both without
`Contents`. -/
def envEmptyListing : SyncEnv :=
  ⟨Except.ok [[], []], fun _ _ _ => Except.ok ()⟩

/-- An environment whose listing fails. -/
def envListingFails : SyncEnv :=
  ⟨Except.error ("AccessDenied").toList, fun _ _ _ => Except.ok ()⟩

/-- An environment listing a single directory-placeholder object (key ending
in `/`) whose transfer fails. -/
def envDirPlaceholder : SyncEnv :=
  ⟨Except.ok [[⟨("data/").toList, 0⟩]],
   fun _ _ _ => Except.error ("IsADirectoryError").toList⟩

/-! ### Helper lemmas -/

lemma takeWhile_ne_slash (b p : Str) (h : '/' ∉ b) :
    ((b ++ '/' :: p).takeWhile (fun c => c != '/')) = b := by
  induction b with
  | nil => simp [List.takeWhile_cons]
  | cons c t ih =>
    have hc : c ≠ '/' := fun hc => h (hc ▸ List.mem_cons_self c t)
    have hm : '/' ∉ t := fun hm => h (List.mem_cons_of_mem c hm)
    simp [List.takeWhile_cons, hc, ih hm]

lemma dropWhile_ne_slash (b p : Str) (h : '/' ∉ b) :
    ((b ++ '/' :: p).dropWhile (fun c => c != '/')) = '/' :: p := by
  induction b with
  | nil => simp [List.dropWhile_cons]
  | cons c t ih =>
    have hc : c ≠ '/' := fun hc => h (hc ▸ List.mem_cons_self c t)
    have hm : '/' ∉ t := fun hm => h (List.mem_cons_of_mem c hm)
    simp [List.dropWhile_cons, hc, ih hm]

lemma takeWhile_ne_newline (p : Str) (h : '\n' ∉ p) :
    (p.takeWhile (fun c => c != '\n')) = p := by
  induction p with
  | nil => rfl
  | cons c t ih =>
    have hc : c ≠ '\n' := fun hc => h (hc ▸ List.mem_cons_self c t)
    have hm : '\n' ∉ t := fun hm => h (List.mem_cons_of_mem c hm)
    simp [List.takeWhile_cons, hc, ih hm]

lemma normAux_no_dotdot (ab : Bool) (acc l : List Str) (h : dotdot ∉ l) :
    normAux ab acc l = acc.reverse ++ l := by
  induction l generalizing acc with
  | nil => simp [normAux]
  | cons s t ih =>
    have hs : s ≠ dotdot := fun hs => h (hs ▸ List.mem_cons_self s t)
    have hm : dotdot ∉ t := fun hm => h (List.mem_cons_of_mem s hm)
    simp [normAux, hs, ih (s :: acc) hm]

lemma isPrefixOf_append_self (l t : List Str) : l.isPrefixOf (l ++ t) = true := by
  induction l with
  | nil => simp [List.isPrefixOf]
  | cons a l ih => simp [List.isPrefixOf, ih]

/-! ### Claim theorems -/

/-- C1, counterexample: the path-mapping step of `sync_s3_bucket` performs no
rejection or cleaning, so a key containing `../` segments yields a destination
outside the local root: with root `/root`, empty prefix and key
`../../etc/passwd`, the produced destination resolves to `/etc/passwd`. -/
theorem c1_counterexample :
    insideRoot (parsePath ("/root").toList)
      (mapLocalPath [] ("../../etc/passwd").toList
        (parsePath ("/root").toList)) = false := by
  decide

/-- C1 (amended): the destination produced by the path-mapping step lies
inside the local root only under extra conditions the code does not enforce:
when the root path has no `..` segments and the stripped local key is a
relative path containing no `..` segments.  The code itself neither rejects
nor cleans escaping keys. -/
theorem c1_no_escape (pfx key rootStr : Str)
    (hroot : dotdot ∉ pathSegs rootStr)
    (habs : isAbsStr (localKeyOf pfx key) = false)
    (hkey : dotdot ∉ pathSegs (localKeyOf pfx key)) :
    insideRoot (parsePath rootStr) (mapLocalPath pfx key (parsePath rootStr)) =
      true := by
  have hboth : dotdot ∉ pathSegs rootStr ++ pathSegs (localKeyOf pfx key) := by
    intro hmem
    rcases List.mem_append.mp hmem with h1 | h2
    · exact hroot h1
    · exact hkey h2
  simp only [mapLocalPath, pathJoin, habs, Bool.false_eq_true, if_false,
    insideRoot, normalizePath, parsePath]
  rw [normAux_no_dotdot _ [] _ hroot, normAux_no_dotdot _ [] _ hboth]
  simp [isPrefixOf_append_self]

/-- C1, witness of the amended claim at prefix `data/`, key `data/sub/a.txt`,
root `/root`. -/
theorem c1_witness :
    insideRoot (parsePath ("/root").toList)
      (mapLocalPath ("data/").toList ("data/sub/a.txt").toList
        (parsePath ("/root").toList)) = true :=
  c1_no_escape ("data/").toList ("data/sub/a.txt").toList ("/root").toList
    (by decide) (by decide) (by decide)

/-- C2, counterexample: when the key does not start with the non-empty
prefix, the code does not use the full key unmodified: it still drops
`len(prefix)` characters.  With prefix `data/` and key `other/x.txt` the
local key becomes `/x.txt`, not `other/x.txt`. -/
theorem c2_counterexample :
    (("data/").toList.isPrefixOf ("other/x.txt").toList = false) ∧
    localKeyOf ("data/").toList ("other/x.txt").toList ≠
      ("other/x.txt").toList ∧
    localKeyOf ("data/").toList ("other/x.txt").toList = ("/x.txt").toList := by
  decide

/-- C2 (amended): with a non-empty prefix the mapper always drops
`len(prefix)` characters from the front of the key, without any
`startswith` check; in particular, when the key does start with the prefix
this strips exactly the prefix, and the slice is total (never crashes). -/
theorem c2_strip_exact (pfx s3_key rest : Str) (h : pfx ≠ [])
    (hk : s3_key = pfx ++ rest) :
    localKeyOf pfx s3_key = rest := by
  subst hk
  simp [localKeyOf, h]

/-- C2, witness of the amended claim at prefix `data/`, key `data/a.txt`. -/
theorem c2_witness :
    localKeyOf ("data/").toList ("data/a.txt").toList = ("a.txt").toList :=
  c2_strip_exact ("data/").toList ("data/a.txt").toList ("a.txt").toList
    (by decide) (by decide)

/-- C3: the worker-pool phase records exactly one terminal outcome per
submitted task — for every task list, the outcome list `run_pool` returns
has the same length as the task list, so no task is left without a recorded
outcome when the pool returns. -/
theorem c3_outcomes_count (env : SyncEnv) (bucket_name : Str)
    (tasks : List (Str × PurePath)) :
    (run_pool env bucket_name tasks).length = tasks.length := by
  simp [run_pool]

/-- C4: `download_file` catches every per-task failure and records it as a
`false` outcome instead of raising; when exactly one of the submitted tasks
is forced to fail, the pool still produces one outcome per task, with
exactly one failure and every other task completing successfully. -/
theorem c4_single_failure (env : SyncEnv) (bucket_name : Str)
    (ts1 ts2 : List (Str × PurePath)) (t : Str × PurePath)
    (h1 : ∀ u ∈ ts1, download_file env bucket_name u.1 u.2 = true)
    (ht : download_file env bucket_name t.1 t.2 = false)
    (h2 : ∀ u ∈ ts2, download_file env bucket_name u.1 u.2 = true) :
    (run_pool env bucket_name (ts1 ++ t :: ts2)).length =
      (ts1 ++ t :: ts2).length ∧
    (run_pool env bucket_name (ts1 ++ t :: ts2)).count false = 1 ∧
    (run_pool env bucket_name (ts1 ++ t :: ts2)).count true =
      ts1.length + ts2.length := by
  have e : run_pool env bucket_name (ts1 ++ t :: ts2) =
      (ts1.map fun u => download_file env bucket_name u.1 u.2) ++
        false :: (ts2.map fun u => download_file env bucket_name u.1 u.2) := by
    simp [run_pool, ht]
  have hm1f : ((ts1.map fun u => download_file env bucket_name u.1 u.2).count
      false) = 0 := by
    rw [List.count_eq_zero]
    intro hmem
    obtain ⟨u, hu, hfu⟩ := List.mem_map.mp hmem
    rw [h1 u hu] at hfu
    cases hfu
  have hm2f : ((ts2.map fun u => download_file env bucket_name u.1 u.2).count
      false) = 0 := by
    rw [List.count_eq_zero]
    intro hmem
    obtain ⟨u, hu, hfu⟩ := List.mem_map.mp hmem
    rw [h2 u hu] at hfu
    cases hfu
  have hm1t : ((ts1.map fun u => download_file env bucket_name u.1 u.2).count
      true) = ts1.length := by
    have hall : ∀ b ∈ (ts1.map fun u => download_file env bucket_name u.1 u.2),
        true = b := by
      intro b hb
      obtain ⟨u, hu, hfu⟩ := List.mem_map.mp hb
      rw [h1 u hu] at hfu
      exact hfu
    have := List.count_eq_length.mpr hall
    simpa using this
  have hm2t : ((ts2.map fun u => download_file env bucket_name u.1 u.2).count
      true) = ts2.length := by
    have hall : ∀ b ∈ (ts2.map fun u => download_file env bucket_name u.1 u.2),
        true = b := by
      intro b hb
      obtain ⟨u, hu, hfu⟩ := List.mem_map.mp hb
      rw [h2 u hu] at hfu
      exact hfu
    have := List.count_eq_length.mpr hall
    simpa using this
  refine ⟨by simp [run_pool], ?_, ?_⟩
  · rw [e, List.count_append, List.count_cons, hm1f, hm2f]
    rfl
  · rw [e, List.count_append, List.count_cons, hm1t, hm2t]
    simp

/-- C4, witness: three tasks, the middle one forced to fail — three outcomes,
one failure, two successes. -/
theorem c4_witness :
    (run_pool envOneBad ("b").toList ([taskA] ++ taskBad :: [taskC])).length =
      ([taskA] ++ taskBad :: [taskC]).length ∧
    (run_pool envOneBad ("b").toList
      ([taskA] ++ taskBad :: [taskC])).count false = 1 ∧
    (run_pool envOneBad ("b").toList
      ([taskA] ++ taskBad :: [taskC])).count true =
      [taskA].length + [taskC].length :=
  c4_single_failure envOneBad ("b").toList [taskA] [taskC] taskBad
    (by decide) (by decide) (by decide)

/-- C5: for every locator of the shape `s3://bucket/path`, with a non-empty
slash-free bucket and a newline-free path, `parse_s3_url` returns exactly that
bucket and the path with surrounding slashes trimmed and one trailing slash
appended when non-empty. -/
theorem c5_parse (b p : Str) (hb : b ≠ []) (hbs : '/' ∉ b) (hp : '\n' ∉ p) :
    parse_s3_url (s3SchemeChars ++ (b ++ '/' :: p)) =
      Except.ok (b, specPrefixOf p) := by
  have hlen : s3SchemeChars.length = 5 := rfl
  have htake : (s3SchemeChars ++ (b ++ '/' :: p)).take 5 = s3SchemeChars := by
    rw [← hlen, List.take_left]
  have hdrop : (s3SchemeChars ++ (b ++ '/' :: p)).drop 5 = b ++ '/' :: p := by
    rw [← hlen, List.drop_left]
  rw [parse_s3_url, htake, if_pos rfl, hdrop]
  simp only [takeWhile_ne_slash b p hbs, dropWhile_ne_slash b p hbs, afterSlash]
  simp [hb, takeWhile_ne_newline p hp, specPrefixOf]

/-- C5, witness at `s3://bucket/path/sub`: bucket `bucket`, prefix
`path/sub/`. -/
theorem c5_witness :
    parse_s3_url (s3SchemeChars ++ (("bucket").toList ++ '/' ::
        ("path/sub").toList)) =
      Except.ok (("bucket").toList, specPrefixOf ("path/sub").toList) ∧
    specPrefixOf ("path/sub").toList = ("path/sub/").toList :=
  ⟨c5_parse ("bucket").toList ("path/sub").toList (by decide) (by decide)
    (by decide), by decide⟩

/-- C6: every locator string without a bucket segment — one not matching the
shape `s3://bucket[/optional-path]` — makes `parse_s3_url` fail with the
`ValueError` message instead of returning a result. -/
theorem c6_invalid (s : Str) (h : hasBucketShape s = false) :
    parse_s3_url s = Except.error invalidMsg := by
  rw [parse_s3_url]
  by_cases ht : s.take 5 = s3SchemeChars
  · rw [if_pos ht]
    rw [hasBucketShape, ht] at h
    simp only [beq_self_eq_true, Bool.true_and] at h
    cases hd : s.drop 5 with
    | nil => simp
    | cons c t =>
      rw [hd] at h
      simp only [headNotSlash, bne_eq_false_iff_eq] at h
      rw [h]
      simp [List.takeWhile_cons]
  · rw [if_neg ht]

/-- C6, witness at `s3:///etc` (no bucket segment before the first slash). -/
theorem c6_witness :
    hasBucketShape ("s3:///etc").toList = false ∧
    parse_s3_url ("s3:///etc").toList = Except.error invalidMsg :=
  ⟨by decide, c6_invalid ("s3:///etc").toList (by decide)⟩

/-- C7: when the listing is empty the run terminates successfully with zero
tasks and zero outcomes, its effect trace is exactly the creation of the
local root directory, the listing call and the `No objects found` notice —
so no subtree is created and no download is attempted. -/
theorem c7_empty_listing (env : SyncEnv) (s3_url local_dir : Str) (w : Nat)
    (bucket pfx : Str) (pages : List (List S3Obj))
    (hparse : parse_s3_url s3_url = Except.ok (bucket, pfx))
    (hpages : env.pages = Except.ok pages)
    (hempty : pages.flatten = []) :
    sync_s3_bucket env s3_url local_dir w =
      ⟨[Effect.mkdirTree (parsePath local_dir), Effect.listCall,
        Effect.printMsg (noObjectsLine s3_url)],
       Except.ok ⟨0, [], []⟩⟩ := by
  simp [sync_s3_bucket, hparse, hpages, hempty]

/-- C7, witness: empty listing under `s3://bucket-a/missing/`. -/
theorem c7_witness :
    sync_s3_bucket envEmptyListing ("s3://bucket-a/missing/").toList
      ("/dest").toList 10 =
      ⟨[Effect.mkdirTree (parsePath ("/dest").toList), Effect.listCall,
        Effect.printMsg (noObjectsLine ("s3://bucket-a/missing/").toList)],
       Except.ok ⟨0, [], []⟩⟩ :=
  c7_empty_listing envEmptyListing ("s3://bucket-a/missing/").toList
    ("/dest").toList 10 ("bucket-a").toList ("missing/").toList [[], []]
    rfl rfl rfl

/-- C9: the local root directory is created before the listing call, so a
run aborting with a listing failure has already created the root: its effect
trace is exactly the root `mkdir` followed by the listing call, and the
listing error is returned. -/
theorem c9_root_before_listing (env : SyncEnv) (s3_url local_dir : Str)
    (w : Nat) (bucket pfx e : Str)
    (hparse : parse_s3_url s3_url = Except.ok (bucket, pfx))
    (hpages : env.pages = Except.error e) :
    sync_s3_bucket env s3_url local_dir w =
      ⟨[Effect.mkdirTree (parsePath local_dir), Effect.listCall],
       Except.error e⟩ := by
  simp [sync_s3_bucket, hparse, hpages]

/-- C9, witness: a failing listing still leaves the root-creation effect
first in the trace. -/
theorem c9_witness :
    sync_s3_bucket envListingFails ("s3://bucket-a/data").toList
      ("/dest").toList 10 =
      ⟨[Effect.mkdirTree (parsePath ("/dest").toList), Effect.listCall],
       Except.error ("AccessDenied").toList⟩ :=
  c9_root_before_listing envListingFails ("s3://bucket-a/data").toList
    ("/dest").toList 10 ("bucket-a").toList ("data/").toList
    ("AccessDenied").toList rfl rfl

/-- C10: a non-empty listing yields exactly one task per listed object, with
no filtering: the task list is the object list mapped through the path
mapper (directory-placeholder keys ending in `/` included), each task's
outcome is recorded by `download_file`, and the task count equals the object
count. -/
theorem c10_task_per_object (env : SyncEnv) (s3_url local_dir : Str)
    (w : Nat) (bucket pfx : Str) (pages : List (List S3Obj))
    (hparse : parse_s3_url s3_url = Except.ok (bucket, pfx))
    (hpages : env.pages = Except.ok pages)
    (hne : pages.flatten ≠ []) :
    (sync_s3_bucket env s3_url local_dir w).result =
      Except.ok
        ⟨pages.flatten.length,
         pages.flatten.map (fun obj =>
           (obj.key, pathJoin (parsePath local_dir) (localKeyOf pfx obj.key))),
         (pages.flatten.map (fun obj =>
           (obj.key,
            pathJoin (parsePath local_dir) (localKeyOf pfx obj.key)))).map
           (fun t => download_file env bucket t.1 t.2)⟩ ∧
    (pages.flatten.map (fun obj =>
      (obj.key,
       pathJoin (parsePath local_dir) (localKeyOf pfx obj.key)))).length =
      pages.flatten.length := by
  refine ⟨?_, by rw [List.length_map]⟩
  simp [sync_s3_bucket, hparse, hpages, hne, run_pool]

/-- C10, witness: one listed object with key `data/` (a directory
placeholder) is submitted as an ordinary download and its failure is
recorded as a `false` outcome, keeping the task count at one. -/
theorem c10_witness :
    (sync_s3_bucket envDirPlaceholder ("s3://bucket-a").toList
        ("/dest").toList 10).result =
      Except.ok
        ⟨1, [(("data/").toList,
              pathJoin (parsePath ("/dest").toList) ("data/").toList)],
         [false]⟩ := by
  have h := c10_task_per_object envDirPlaceholder ("s3://bucket-a").toList
    ("/dest").toList 10 ("bucket-a").toList [] [[⟨("data/").toList, 0⟩]]
    rfl rfl (by decide)
  rw [h.1]
  rfl

/-- C8: the client configuration sets the connection-pool capacity to the
worker count plus a fixed headroom of 10, hence always at least the worker
count; at worker count 3 the capacity is at least 13. -/
theorem c8_pool_capacity (max_workers : Nat) :
    ((mkClientConfig max_workers).max_pool_connections = max_workers + 10) ∧
    (max_workers ≤ (mkClientConfig max_workers).max_pool_connections) ∧
    (13 ≤ (mkClientConfig 3).max_pool_connections) := by
  refine ⟨rfl, ?_, by decide⟩
  simp [mkClientConfig]

end S3Copy
